import Mathlib

/-!
# Verification of `atomate2.vasp.drones.VaspDrone`

A shallow embedding of the two methods of `VaspDrone`
(`src/atomate2/vasp/drones.py`):

* `get_valid_paths` — the directory classifier invoked once per node of an
  `os.walk` traversal with a `(parent, subdirs, files)` triple;
* `assimilate` — the pass-through to `TaskDocument.from_directory` that logs
  and re-raises failures.

Python strings are modelled by Lean `String`; the string predicates
`str.endswith` / `str.startswith` are modelled by suffix/prefix tests on the
character lists, which is exactly their Python semantics.  The filesystem
that `Path(parent).glob("vasprun.xml*")` consults is modelled as an explicit
parameter `fs : String → List String` giving the entry names of each
directory (the glob with pattern `vasprun.xml*` keeps exactly the entries
whose name starts with the literal prefix `vasprun.xml`).  A second variant
`get_valid_pathsE` makes the possibility of a filesystem read failure
explicit with an `Except` filesystem, mirroring the evaluation order of the
Python code (the glob runs only when rule 1 failed and the `endswith`
exclusion passed, because Python `and` short-circuits).
-/

namespace VaspDrones

/-- Python `str.endswith(sfx)`: the character sequence of `sfx` is a suffix
of the character sequence of `s`. -/
def endswith (s sfx : String) : Bool :=
  sfx.data.isSuffixOf s.data

/-- Python `str.startswith(pre)`: the character sequence of `pre` is a
prefix of the character sequence of `s`. -/
def startswith (s pre : String) : Bool :=
  pre.data.isPrefixOf s.data

/-- `os.sep` on a POSIX system. -/
def sep : String := "/"

/-- `task_names = ["precondition"] + [f"relax{i}" for i in range(9)]`
(line 82 of `drones.py`). -/
def task_names : List String :=
  "precondition" :: (List.range 9).map (fun i => "relax" ++ toString i)

/-- `VaspDrone.get_valid_paths` (lines 81–90 of `drones.py`):

```python
parent, subdirs, _ = path
task_names = ["precondition"] + [f"relax{i}" for i in range(9)]
if set(task_names).intersection(subdirs):
    return [parent]
if (
    not any([parent.endswith(os.sep + r) for r in task_names])
    and len(list(Path(parent).glob("vasprun.xml*"))) > 0
):
    return [parent]
return []
```

`fs` gives, for each directory path, the list of entry names the glob
scans; `set(task_names).intersection(subdirs)` is truthy exactly when some
task name occurs among `subdirs`. -/
def get_valid_paths (fs : String → List String)
    (path : String × List String × List String) : List String :=
  let parent := path.1
  let subdirs := path.2.1
  if task_names.any (fun t => subdirs.contains t) then
    [parent]
  else if (!(task_names.any (fun r => endswith parent (sep ++ r))))
      && decide (0 < ((fs parent).filter
            (fun f => startswith f "vasprun.xml")).length) then
    [parent]
  else
    []

/-- `VaspDrone.get_valid_paths` with an explicit fallible filesystem: the
glob of rule 2 may fail (e.g. unreadable directory), and it is evaluated
only after rule 1 has failed and the `endswith` exclusion has passed
(Python `and` short-circuits, so the glob on line 88 runs only then).
Everything else is as in `get_valid_paths`. -/
def get_valid_pathsE (fs : String → Except String (List String))
    (path : String × List String × List String) : Except String (List String) :=
  let parent := path.1
  let subdirs := path.2.1
  if task_names.any (fun t => subdirs.contains t) then
    .ok [parent]
  else if !(task_names.any (fun r => endswith parent (sep ++ r))) then
    match fs parent with
    | .error e => .error e
    | .ok entries =>
        if 0 < (entries.filter (fun f => startswith f "vasprun.xml")).length then
          .ok [parent]
        else
          .ok []
  else
    .ok []

/-- The final path segment of a path string: the characters after the last
`/` (the whole string when it has no `/`).  Used only to state claims that
speak of "final path component"; the code itself uses `endswith`. -/
def lastSegment (s : String) : String :=
  ⟨(s.data.reverse.takeWhile (fun c => c ≠ '/')).reverse⟩

/-- One record emitted on the logging side channel. -/
structure LogEntry where
  level : String
  msg : String
deriving DecidableEq

/-- `VaspDrone.assimilate` (lines 46–56 of `drones.py`), for an already
resolved `path`:

```python
try:
    doc = TaskDocument.from_directory(path, **self.task_document_kwargs)
except Exception:  # (the traceback module is pulled in here)
    logger.error(f"Error in {Path(path).absolute()}\n{traceback.format_exc()}")
    raise
return doc
```

The external parser `TaskDocument.from_directory` (with its keyword
arguments already applied) is the parameter `from_directory`; a failure is
an `Except.error e`.  `format_exc e` is the traceback text of the failure
`e` and `absolute p` is `Path(p).absolute()`, both opaque.  The result is
the outcome together with the list of log records emitted. -/
def assimilate {E Doc : Type} (from_directory : String → Except E Doc)
    (format_exc : E → String) (absolute : String → String)
    (path : String) : Except E Doc × List LogEntry :=
  match from_directory path with
  | .ok doc => (.ok doc, [])
  | .error e =>
      (.error e,
       [⟨"error", "Error in " ++ absolute path ++ "\n" ++ format_exc e⟩])

/-- `VaspDrone.assimilate` including the default-argument handling of lines
46–47: `path` defaults to `None`, and `None` is replaced by `Path.cwd()`
before delegating. -/
def assimilate_opt {E Doc : Type} (from_directory : String → Except E Doc)
    (format_exc : E → String) (absolute : String → String)
    (cwd : String) (path : Option String) : Except E Doc × List LogEntry :=
  assimilate from_directory format_exc absolute
    (match path with
     | none => cwd
     | some p => p)

/-! ## Bridge lemmas between the executable booleans and propositions -/

/-- Rule 1 of the classifier holds: some reserved task name occurs among the
immediate subdirectories (truthiness of
`set(task_names).intersection(subdirs)`). -/
def rule1Holds (subdirs : List String) : Prop :=
  ∃ t, t ∈ task_names ∧ t ∈ subdirs

/-- Rule 2 of the classifier holds: the parent does not end in
`os.sep + r` for a reserved name `r`, and the directory contains at least
one entry matching the glob `vasprun.xml*`. -/
def rule2Holds (fs : String → List String) (parent : String) : Prop :=
  (¬ ∃ r, r ∈ task_names ∧ endswith parent (sep ++ r) = true) ∧
  (∃ f, f ∈ fs parent ∧ startswith f "vasprun.xml" = true)

theorem contains_iff {a : String} {l : List String} :
    l.contains a = true ↔ a ∈ l := by
  simp [List.contains, List.elem_iff]

theorem rule1_bool_iff {subdirs : List String} :
    (task_names.any fun t => subdirs.contains t) = true ↔ rule1Holds subdirs := by
  simp only [List.any_eq_true, rule1Holds, contains_iff]

theorem exclusion_bool_iff {parent : String} :
    (task_names.any fun r => endswith parent (sep ++ r)) = true ↔
      ∃ r, r ∈ task_names ∧ endswith parent (sep ++ r) = true := by
  simp only [List.any_eq_true]

theorem glob_bool_iff {fs : String → List String} {parent : String} :
    (0 < ((fs parent).filter fun f => startswith f "vasprun.xml").length) ↔
      ∃ f, f ∈ fs parent ∧ startswith f "vasprun.xml" = true := by
  simp only [List.length_pos_iff_exists_mem, List.mem_filter]

/-- Evaluating the classifier when rule 1 applies. -/
theorem get_valid_paths_of_rule1 {fs : String → List String} {parent : String}
    {subdirs files : List String} (h : rule1Holds subdirs) :
    get_valid_paths fs (parent, subdirs, files) = [parent] := by
  have hb : (task_names.any fun t => subdirs.contains t) = true :=
    rule1_bool_iff.mpr h
  simp only [get_valid_paths, hb, if_true]

/-- Evaluating the classifier when rule 1 fails. -/
theorem get_valid_paths_of_not_rule1 {fs : String → List String}
    {parent : String} {subdirs files : List String} (h : ¬ rule1Holds subdirs) :
    get_valid_paths fs (parent, subdirs, files) =
      if (!(task_names.any fun r => endswith parent (sep ++ r)))
          && decide (0 < ((fs parent).filter
                fun f => startswith f "vasprun.xml").length) then
        [parent]
      else
        [] := by
  have hb : (task_names.any fun t => subdirs.contains t) = false := by
    rw [Bool.eq_false_iff]
    intro hc
    exact h (rule1_bool_iff.mp hc)
  simp only [get_valid_paths, hb, Bool.false_eq_true, if_false]

/-- No reserved task name contains a path separator. -/
theorem task_names_no_sep : ∀ r ∈ task_names, '/' ∉ r.data := by decide

/-- If `s` ends with `"/" ++ r` for a separator-free `r`, then the final
path segment of `s` is exactly `r`. -/
theorem lastSegment_of_endswith {s r : String} (hr : '/' ∉ r.data)
    (h : endswith s (sep ++ r) = true) : lastSegment s = r := by
  have hsuf : ('/' :: r.data) <:+ s.data := by
    simpa [endswith, sep, List.isSuffixOf_iff_suffix] using h
  obtain ⟨t, ht⟩ := hsuf
  have hrev : s.data.reverse = r.data.reverse ++ '/' :: t.reverse := by
    rw [← ht]
    simp
  have hpos : ∀ a ∈ r.data.reverse, (fun c => decide (c ≠ '/')) a = true := by
    intro a ha
    simp only [decide_eq_true_eq]
    intro hEq
    exact hr (hEq ▸ List.mem_reverse.mp ha)
  obtain ⟨rd⟩ := r
  simp only [lastSegment, hrev]
  rw [List.takeWhile_append_of_pos hpos]
  simp

/-- Conversely, a reserved final path segment only blocks rule 2 when the
name is preceded by a separator: the boolean exclusion of line 87 is
exactly the existence of a reserved suffix. -/
theorem exclusion_false_of_lastSegment {parent : String}
    (h : lastSegment parent ∉ task_names) :
    (task_names.any fun r => endswith parent (sep ++ r)) = false := by
  rw [Bool.eq_false_iff]
  intro hc
  obtain ⟨r, hrmem, hrend⟩ := exclusion_bool_iff.mp hc
  exact h ((lastSegment_of_endswith (task_names_no_sep r hrmem) hrend) ▸ hrmem)

/-! ## Claims -/

/-- C1: for every input triple `(parent, subdirs, files)`, if the set of
immediate subdirectory names intersects the reserved set
`{precondition, relax0..relax8}`, then `get_valid_paths` returns the
one-element list `[parent]` — for every filesystem state `fs` and every
`files` component, so in particular regardless of whether the directory
itself holds a `vasprun.xml*` file: rule 1 is evaluated first and wins
over rule 2. -/
theorem C1_container_rule_wins (fs : String → List String) (parent : String)
    (subdirs files : List String) (h : rule1Holds subdirs) :
    get_valid_paths fs (parent, subdirs, files) = [parent] :=
  get_valid_paths_of_rule1 h

/-- Witness for C1 at scenario A of the spec: `parent = "/run"`,
`subdirs = ["relax0"]`, with a `vasprun.xml` present in the directory. -/
theorem C1_container_rule_wins_witness :
    rule1Holds ["relax0"] ∧
    get_valid_paths (fun _ => ["vasprun.xml"]) ("/run", ["relax0"], ["x"]) =
      ["/run"] :=
  ⟨⟨"relax0", by decide, by decide⟩,
   C1_container_rule_wins _ _ _ _ ⟨"relax0", by decide, by decide⟩⟩

/-- C2 counterexample: the claim says a bare single-component parent such
as `"relax0"` is excluded by rule 2, i.e. classified to `[]`.  It is not:
`parent.endswith(os.sep + r)` requires a separator before the reserved
name, and `"relax0"` has none, so with a `vasprun.xml` present the
classifier returns `["relax0"]` — even though the final path segment of
`"relax0"` is reserved and rule 1 does not apply. -/
theorem C2_counterexample :
    lastSegment "relax0" ∈ task_names ∧
    ¬ rule1Holds [] ∧
    get_valid_paths (fun _ => ["vasprun.xml"]) ("relax0", [], ["vasprun.xml"])
      ≠ [] ∧
    get_valid_paths (fun _ => ["vasprun.xml"]) ("relax0", [], ["vasprun.xml"])
      = ["relax0"] := by
  refine ⟨by decide, ?notRuleOne, by decide, by decide⟩
  rintro ⟨t, -, hmem⟩
  simp at hmem

/-- C2 (amended): for every directory whose parent path ends with the
separator followed by a reserved name (equivalently: whose final path
segment is reserved AND is preceded by a separator) and whose
subdirectories do not intersect the reserved set, `get_valid_paths`
returns `[]` even if the directory contains `vasprun.xml*` files.  The
exclusion test is a suffix match of `os.sep + name`, not a substring
match (`"myrelax0"` is not excluded) — but a bare single-component parent
such as `"relax0"` is NOT excluded either. -/
theorem C2_amended_reserved_suffix_excluded (fs : String → List String)
    (parent : String) (subdirs files : List String)
    (h1 : ¬ rule1Holds subdirs)
    (h2 : ∃ r, r ∈ task_names ∧ endswith parent (sep ++ r) = true) :
    lastSegment parent ∈ task_names ∧
    get_valid_paths fs (parent, subdirs, files) = [] := by
  obtain ⟨r, hrmem, hrend⟩ := h2
  refine ⟨(lastSegment_of_endswith (task_names_no_sep r hrmem) hrend) ▸ hrmem, ?_⟩
  rw [get_valid_paths_of_not_rule1 h1]
  have hb : (task_names.any fun t => endswith parent (sep ++ t)) = true :=
    exclusion_bool_iff.mpr ⟨r, hrmem, hrend⟩
  simp [hb]

/-- Witness for the amended C2 at scenario B of the spec:
`parent = "/run/relax0"`, no subdirectories, `vasprun.xml` present. -/
theorem C2_amended_reserved_suffix_excluded_witness :
    (¬ rule1Holds []) ∧
    (∃ r, r ∈ task_names ∧ endswith "/run/relax0" (sep ++ r) = true) ∧
    lastSegment "/run/relax0" ∈ task_names ∧
    get_valid_paths (fun _ => ["vasprun.xml"]) ("/run/relax0", [], []) = [] := by
  have hn : ¬ rule1Holds ([] : List String) := by
    rintro ⟨t, -, hmem⟩
    simp at hmem
  exact ⟨hn, ⟨"relax0", by decide, by decide⟩,
    C2_amended_reserved_suffix_excluded _ _ _ _ hn ⟨"relax0", by decide, by decide⟩⟩

/-- C3: for every directory whose subdirectories do not intersect the
reserved set, whose final path segment is not a reserved name, and which
contains at least one file whose name begins with the prefix
`vasprun.xml` (any suffix, e.g. `vasprun.xml.gz`), `get_valid_paths`
returns `[parent]`. -/
theorem C3_leaf_output_accepted (fs : String → List String) (parent : String)
    (subdirs files : List String)
    (h1 : ¬ rule1Holds subdirs)
    (h2 : lastSegment parent ∉ task_names)
    (h3 : ∃ f, f ∈ fs parent ∧ startswith f "vasprun.xml" = true) :
    get_valid_paths fs (parent, subdirs, files) = [parent] := by
  rw [get_valid_paths_of_not_rule1 h1]
  have hb1 := exclusion_false_of_lastSegment h2
  have hb2 : decide
      (0 < ((fs parent).filter fun f => startswith f "vasprun.xml").length)
      = true := by
    rw [decide_eq_true_eq]
    exact glob_bool_iff.mpr h3
  simp [hb1, hb2]

/-- Witness for C3 at scenario C of the spec: `parent = "/run/final"`,
no subdirectories, `vasprun.xml.gz` present. -/
theorem C3_leaf_output_accepted_witness :
    (¬ rule1Holds []) ∧
    lastSegment "/run/final" ∉ task_names ∧
    (∃ f, f ∈ (fun _ : String => ["vasprun.xml.gz"]) "/run/final" ∧
      startswith f "vasprun.xml" = true) ∧
    get_valid_paths (fun _ => ["vasprun.xml.gz"]) ("/run/final", [], []) =
      ["/run/final"] := by
  have hn : ¬ rule1Holds ([] : List String) := by
    rintro ⟨t, -, hmem⟩
    simp at hmem
  exact ⟨hn, by decide, ⟨"vasprun.xml.gz", by decide, by decide⟩,
    C3_leaf_output_accepted _ _ _ _ hn (by decide)
      ⟨"vasprun.xml.gz", by decide, by decide⟩⟩

/-- C4: an input satisfying neither rule 1 nor rule 2 is classified to
`[]`; and on every input whatsoever the result is either `[]` or exactly
`[parent]` with the parent string unchanged — never any other value and
never more than one element. -/
theorem C4_rejection_and_result_shape (fs : String → List String)
    (parent : String) (subdirs files : List String) :
    ((¬ rule1Holds subdirs) → (¬ rule2Holds fs parent) →
      get_valid_paths fs (parent, subdirs, files) = []) ∧
    (get_valid_paths fs (parent, subdirs, files) = [] ∨
      get_valid_paths fs (parent, subdirs, files) = [parent]) := by
  constructor
  · intro h1 h2
    rw [get_valid_paths_of_not_rule1 h1]
    cases hE : (task_names.any fun r => endswith parent (sep ++ r)) with
    | true => simp [hE]
    | false =>
        have hA : ¬ ∃ r, r ∈ task_names ∧ endswith parent (sep ++ r) = true := by
          intro hc
          rw [exclusion_bool_iff.mpr hc] at hE
          cases hE
        have hg : decide (0 < ((fs parent).filter
            fun f => startswith f "vasprun.xml").length) = false := by
          rw [decide_eq_false_iff_not]
          intro hp
          exact h2 ⟨hA, glob_bool_iff.mp hp⟩
        simp [hE, hg]
  · simp only [get_valid_paths]
    split
    · exact Or.inr rfl
    · split
      · exact Or.inr rfl
      · exact Or.inl rfl

/-- Witness for C4 at scenario D of the spec: an empty directory `/empty`
is rejected. -/
theorem C4_rejection_and_result_shape_witness :
    (¬ rule1Holds []) ∧
    (¬ rule2Holds (fun _ => []) "/empty") ∧
    get_valid_paths (fun _ => []) ("/empty", [], []) = [] := by
  have h1 : ¬ rule1Holds ([] : List String) := by
    rintro ⟨t, -, hm⟩
    simp at hm
  have h2 : ¬ rule2Holds (fun _ => ([] : List String)) "/empty" := by
    rintro ⟨-, f, hf, -⟩
    simp at hf
  exact ⟨h1, h2,
    (C4_rejection_and_result_shape (fun _ => []) "/empty" [] []).1 h1 h2⟩

/-- C5: the reserved name set used by both rules is exactly the ten names
`precondition, relax0, ..., relax8` (zero-indexed); `relax9` is not
reserved, so a subdirectory named `relax9` does not trigger rule 1 (the
classifier behaves as if it were absent) and a parent ending in the
segment `relax9` is not excluded by rule 2 — despite the docstring of
`get_valid_paths` describing the set as `relax1`…`relax9`. -/
theorem C5_reserved_set_is_precondition_relax0_to_relax8 :
    task_names = ["precondition", "relax0", "relax1", "relax2", "relax3",
      "relax4", "relax5", "relax6", "relax7", "relax8"] ∧
    "relax9" ∉ task_names ∧
    (∀ (fs : String → List String) (parent : String) (files : List String),
      get_valid_paths fs (parent, ["relax9"], files) =
        get_valid_paths fs (parent, [], files)) ∧
    get_valid_paths (fun _ => ["vasprun.xml"]) ("/run/relax9", [], []) =
      ["/run/relax9"] := by
  refine ⟨by decide, by decide, ?_, by decide⟩
  intro fs parent files
  have h9 : (task_names.any fun t => (["relax9"] : List String).contains t)
      = false := by decide
  have h0 : (task_names.any fun t => ([] : List String).contains t)
      = false := by decide
  simp only [get_valid_paths, h9, h0]

/-- C6: the classifier is order-independent in its subdirectories input —
two subdirectory lists with the same members (any permutation, duplicates
allowed) classify identically, for every parent, filesystem state and
files component. -/
theorem C6_subdir_order_irrelevant (fs : String → List String)
    (parent : String) (files subdirs1 subdirs2 : List String)
    (h : ∀ x, x ∈ subdirs1 ↔ x ∈ subdirs2) :
    get_valid_paths fs (parent, subdirs1, files) =
      get_valid_paths fs (parent, subdirs2, files) := by
  have hb : (task_names.any fun t => subdirs1.contains t) =
      (task_names.any fun t => subdirs2.contains t) := by
    rw [Bool.eq_iff_iff]
    constructor
    · intro h1
      obtain ⟨t, ht, hm⟩ := rule1_bool_iff.mp h1
      exact rule1_bool_iff.mpr ⟨t, ht, (h t).mp hm⟩
    · intro h1
      obtain ⟨t, ht, hm⟩ := rule1_bool_iff.mp h1
      exact rule1_bool_iff.mpr ⟨t, ht, (h t).mpr hm⟩
  simp only [get_valid_paths, hb]

/-- Witness for C6: `["a", "relax0"]` and the permutation-with-duplicates
`["relax0", "a", "a"]` classify identically. -/
theorem C6_subdir_order_irrelevant_witness :
    (∀ x : String, x ∈ ["a", "relax0"] ↔ x ∈ ["relax0", "a", "a"]) ∧
    get_valid_paths (fun _ => []) ("/run", ["a", "relax0"], []) =
      get_valid_paths (fun _ => []) ("/run", ["relax0", "a", "a"], []) := by
  have h : ∀ x : String, x ∈ ["a", "relax0"] ↔ x ∈ ["relax0", "a", "a"] := by
    intro x
    simp only [List.mem_cons, List.not_mem_nil, or_false]
    tauto
  exact ⟨h, C6_subdir_order_irrelevant _ _ _ _ _ h⟩

/-- C7: the `files` component of the `os.walk` triple never influences
classification — it is unpacked to `_` and discarded, so two calls with
the same parent, subdirectories and filesystem state but arbitrary
differing `files` lists return the same result. -/
theorem C7_files_component_ignored (fs : String → List String)
    (parent : String) (subdirs files1 files2 : List String) :
    get_valid_paths fs (parent, subdirs, files1) =
      get_valid_paths fs (parent, subdirs, files2) := rfl

/-- The fallible-filesystem variant agrees with `get_valid_paths` whenever
the filesystem read succeeds. -/
theorem get_valid_pathsE_agrees (fs : String → List String)
    (parent : String) (subdirs files : List String) :
    get_valid_pathsE (fun p => .ok (fs p)) (parent, subdirs, files) =
      .ok (get_valid_paths fs (parent, subdirs, files)) := by
  cases h1 : (task_names.any fun t => subdirs.contains t) with
  | true => simp only [get_valid_pathsE, get_valid_paths, h1, if_true]
  | false =>
    cases h2 : (task_names.any fun r => endswith parent (sep ++ r)) with
    | true =>
        simp only [get_valid_pathsE, get_valid_paths, h1, h2, Bool.not_true,
          Bool.false_and, Bool.false_eq_true, if_false]
    | false =>
        simp only [get_valid_pathsE, get_valid_paths, h1, h2, Bool.not_false,
          Bool.true_and, Bool.false_eq_true, if_false, eq_self_iff_true,
          if_true]
        by_cases h3 : 0 < ((fs parent).filter
            fun f => startswith f "vasprun.xml").length
        · rw [if_pos h3, if_pos (decide_eq_true h3)]
        · rw [if_neg h3, if_neg]
          intro hc
          exact h3 (of_decide_eq_true hc)

/-- C8: whenever the external parser fails, `assimilate` emits exactly one
error-severity log record whose message embeds the absolute form of the
path and the full failure trace, and returns the original failure
unchanged (no wrapping, no suppression, no retry); whenever the parser
succeeds, `assimilate` returns the parser's document and emits no log
record — there is no silent-failure path. -/
theorem C8_failure_logged_once_and_reraised {E Doc : Type}
    (from_directory : String → Except E Doc) (format_exc : E → String)
    (absolute : String → String) (path : String) :
    (∀ d, from_directory path = .ok d →
      assimilate from_directory format_exc absolute path = (.ok d, [])) ∧
    (∀ e, from_directory path = .error e →
      assimilate from_directory format_exc absolute path =
        (.error e,
         [⟨"error", "Error in " ++ absolute path ++ "\n" ++ format_exc e⟩]) ∧
      ("Error in " ++ absolute path ++ "\n" ++ format_exc e).data =
        "Error in ".data ++ (absolute path).data ++
          ("\n".data ++ (format_exc e).data)) := by
  constructor
  · intro d hd
    simp [assimilate, hd]
  · intro e he
    refine ⟨by simp [assimilate, he], ?_⟩
    simp [List.append_assoc]

/-- Witness for C8: a parser that succeeds with document `7` produces no
log; a parser that fails with trace `"trace"` is logged once with the
absolute path and the trace, and the failure is returned unchanged. -/
theorem C8_failure_logged_once_and_reraised_witness :
    ((fun _ : String => (Except.ok 7 : Except String Nat)) "/d" =
      Except.ok 7) ∧
    ((fun _ : String => (Except.error "trace" : Except String Nat)) "/d" =
      Except.error "trace") ∧
    assimilate (fun _ : String => (Except.ok 7 : Except String Nat))
      id id "/d" = (Except.ok 7, []) ∧
    assimilate (fun _ : String => (Except.error "trace" : Except String Nat))
      id id "/d" =
      (Except.error "trace", [⟨"error", "Error in /d\ntrace"⟩]) := by
  refine ⟨rfl, rfl, ?_, ?_⟩
  · exact (C8_failure_logged_once_and_reraised
      (fun _ : String => (Except.ok 7 : Except String Nat)) id id "/d").1 7 rfl
  · exact ((C8_failure_logged_once_and_reraised
      (fun _ : String => (Except.error "trace" : Except String Nat))
      id id "/d").2 "trace" rfl).1.trans rfl

/-- C9: with the path argument omitted (`none`, the Python default), the
call delegates to the external parser with the current working directory
as the path and applies no validation first — the outcome is exactly the
parser's outcome at `cwd`; with a supplied path the delegation is equally
unconditional. -/
theorem C9_default_path_is_cwd {E Doc : Type}
    (from_directory : String → Except E Doc) (format_exc : E → String)
    (absolute : String → String) (cwd : String) :
    assimilate_opt from_directory format_exc absolute cwd none =
      assimilate from_directory format_exc absolute cwd ∧
    (∀ p, assimilate_opt from_directory format_exc absolute cwd (some p) =
      assimilate from_directory format_exc absolute p) ∧
    (∀ d, from_directory cwd = .ok d →
      (assimilate_opt from_directory format_exc absolute cwd none).1 =
        .ok d) ∧
    (∀ e, from_directory cwd = .error e →
      (assimilate_opt from_directory format_exc absolute cwd none).1 =
        .error e) := by
  refine ⟨rfl, fun p => rfl, ?_, ?_⟩
  · intro d hd
    simp [assimilate_opt, assimilate, hd]
  · intro e he
    simp [assimilate_opt, assimilate, he]

/-- Witness for C9: with the path omitted, a parser succeeding at the
working directory `/cwd` determines the outcome. -/
theorem C9_default_path_is_cwd_witness :
    ((fun _ : String => (Except.ok 3 : Except String Nat)) "/cwd" =
      Except.ok 3) ∧
    (assimilate_opt (fun _ : String => (Except.ok 3 : Except String Nat))
      id id "/cwd" none).1 = Except.ok 3 :=
  ⟨rfl, (C9_default_path_is_cwd
    (fun _ : String => (Except.ok 3 : Except String Nat))
    id id "/cwd").2.2.1 3 rfl⟩

/-- C10: when rule 1 applies, the classifier never evaluates the
`vasprun.xml*` glob: in the fallible-filesystem model the result is
`.ok [parent]` for EVERY filesystem — including one whose every read
fails — so the filesystem-error branch is unreachable and classification
succeeds even if the directory itself is unreadable. -/
theorem C10_rule1_skips_filesystem (fs : String → Except String (List String))
    (parent : String) (subdirs files : List String) (h : rule1Holds subdirs) :
    get_valid_pathsE fs (parent, subdirs, files) = .ok [parent] := by
  have hb : (task_names.any fun t => subdirs.contains t) = true :=
    rule1_bool_iff.mpr h
  simp only [get_valid_pathsE, hb, if_true]

/-- Witness for C10: with a filesystem whose every read fails, a directory
holding a `precondition` subdirectory is still classified successfully. -/
theorem C10_rule1_skips_filesystem_witness :
    rule1Holds ["precondition"] ∧
    get_valid_pathsE (fun _ => Except.error "unreadable")
      ("/run", ["precondition"], []) = Except.ok ["/run"] :=
  ⟨⟨"precondition", by decide, by decide⟩,
   C10_rule1_skips_filesystem _ _ _ _ ⟨"precondition", by decide, by decide⟩⟩

end VaspDrones
